import Mathlib

/-!
Shallow embedding of the Schedule Lookup & Delay Prediction Engine of the
BeaverHacks2025 bus-delay backend (`backend/app/routers/bus_data.py` and
`backend/app/routers/prediction.py`).

Python `float` values stored in records are modelled by `PyFloat`
(a finite rational or a non-finite value); exact rational arithmetic stands
in for double arithmetic.  Python `datetime.datetime` / `datetime.time`
values are modelled by `DT` / `TOD` with their lexicographic component
orders, which is how Python compares them.  `datetime.strptime` with the
fixed formats `'%Y-%m-%d %H:%M:%S'` and `'%H:%M:%S'` is modelled by strict
fixed-width parsers over the string's characters, including the calendar
range checks `strptime` performs; all strings appearing in the data path of
the service are in this canonical zero-padded form.
-/

/-- A Python float as stored in a record: either a finite value (modelled
exactly by a rational) or a non-finite value (`inf`, `-inf` or `nan`),
which `math.isfinite` rejects. -/
inductive PyFloat where
  | fin (q : ℚ)
  | nonfin
deriving DecidableEq, Repr

/-- `math.isfinite` on a stored float. -/
def PyFloat.isFinite : PyFloat → Bool
  | .fin _ => true
  | .nonfin => false

/-- The finite value of a stored float (0 for non-finite values; only used
under a finiteness guard, mirroring the code's `isinstance`/`isfinite`
checks). -/
def PyFloat.val : PyFloat → ℚ
  | .fin q => q
  | .nonfin => 0

/-- A time of day (`datetime.time` with zero microseconds): hour, minute,
second. -/
structure TOD where
  hour : Nat
  minute : Nat
  second : Nat
deriving DecidableEq, Repr

/-- Python's `datetime.time` order: lexicographic on (hour, minute, second). -/
def TOD.le (a b : TOD) : Prop :=
  a.hour < b.hour ∨ (a.hour = b.hour ∧
    (a.minute < b.minute ∨ (a.minute = b.minute ∧ a.second ≤ b.second)))

instance TOD.decLe (a b : TOD) : Decidable (TOD.le a b) := by
  unfold TOD.le; infer_instance

theorem tod_le_refl (a : TOD) : TOD.le a a := by
  unfold TOD.le; omega

theorem tod_le_trans {a b c : TOD} (h1 : TOD.le a b) (h2 : TOD.le b c) :
    TOD.le a c := by
  unfold TOD.le at *; omega

theorem tod_le_total (a b : TOD) : TOD.le a b ∨ TOD.le b a := by
  unfold TOD.le; omega

theorem tod_le_antisymm {a b : TOD} (h1 : TOD.le a b) (h2 : TOD.le b a) :
    a = b := by
  unfold TOD.le at *
  cases a; cases b
  simp only [TOD.mk.injEq]
  simp_all only []
  omega

/-- A full calendar timestamp (`datetime.datetime` with zero microseconds). -/
structure DT where
  year : Nat
  month : Nat
  day : Nat
  hour : Nat
  minute : Nat
  second : Nat
deriving DecidableEq, Repr

/-- The time-of-day component (`datetime.datetime.time()`). -/
def DT.tod (d : DT) : TOD := ⟨d.hour, d.minute, d.second⟩

/-- Python's `datetime.datetime` order: lexicographic on
(year, month, day, hour, minute, second). -/
def DT.le (a b : DT) : Prop :=
  a.year < b.year ∨ (a.year = b.year ∧
    (a.month < b.month ∨ (a.month = b.month ∧
      (a.day < b.day ∨ (a.day = b.day ∧
        (a.hour < b.hour ∨ (a.hour = b.hour ∧
          (a.minute < b.minute ∨ (a.minute = b.minute ∧
            a.second ≤ b.second)))))))))

instance DT.decLe (a b : DT) : Decidable (DT.le a b) := by
  unfold DT.le; infer_instance

theorem dt_le_refl (a : DT) : DT.le a a := by
  unfold DT.le; omega

theorem dt_le_trans {a b c : DT} (h1 : DT.le a b) (h2 : DT.le b c) :
    DT.le a c := by
  unfold DT.le at *; omega

theorem dt_le_total (a b : DT) : DT.le a b ∨ DT.le b a := by
  unfold DT.le; omega

theorem dt_le_antisymm {a b : DT} (h1 : DT.le a b) (h2 : DT.le b a) :
    a = b := by
  unfold DT.le at *
  cases a; cases b
  simp only [DT.mk.injEq]
  simp_all only []
  omega

/-- Numeric value of a decimal digit character, `none` for non-digits. -/
def digitVal (c : Char) : Option Nat :=
  if c.isDigit then some (c.toNat - 48) else none

/-- Value of a two-digit decimal field. -/
def twoDigits (c1 c2 : Char) : Option Nat :=
  match digitVal c1, digitVal c2 with
  | some d1, some d2 => some (10 * d1 + d2)
  | _, _ => none

/-- Value of a four-digit decimal field. -/
def fourDigits (c1 c2 c3 c4 : Char) : Option Nat :=
  match digitVal c1, digitVal c2, digitVal c3, digitVal c4 with
  | some d1, some d2, some d3, some d4 =>
      some (1000 * d1 + 100 * d2 + 10 * d3 + d4)
  | _, _, _, _ => none

/-- Gregorian leap-year test, as used by Python's `datetime` calendar. -/
def isLeapYear (y : Nat) : Bool :=
  (y % 4 = 0 && y % 100 ≠ 0) || y % 400 = 0

/-- Number of days in a month of a given year (`datetime` calendar). -/
def daysInMonth (y m : Nat) : Nat :=
  if m = 2 then (if isLeapYear y then 29 else 28)
  else if m = 4 ∨ m = 6 ∨ m = 9 ∨ m = 11 then 30
  else 31

/-- `datetime.strptime(s, '%H:%M:%S').time()` on the canonical zero-padded
form `HH:MM:SS` (the only form the service's regex-validated inputs and
`strftime` outputs take): `none` when the string does not parse or a
component is out of range, mirroring the `ValueError` raised by `strptime`. -/
def parseTOD (s : String) : Option TOD :=
  match s.data with
  | [h1, h2, c1, m1, m2, c2, s1, s2] =>
    if c1 = ':' ∧ c2 = ':' then
      match twoDigits h1 h2, twoDigits m1 m2, twoDigits s1 s2 with
      | some h, some m, some sec =>
          if h ≤ 23 ∧ m ≤ 59 ∧ sec ≤ 59 then some ⟨h, m, sec⟩ else none
      | _, _, _ => none
    else none
  | _ => none

/-- `datetime.strptime(s, '%Y-%m-%d %H:%M:%S')` on the canonical zero-padded
form `YYYY-MM-DD HH:MM:SS` (the form of every `scheduled_arrival` the
dataset's loader admits): `none` when the string does not parse or a
component is out of the `datetime` ranges (year ≥ 1, month 1-12, day within
the month, hour ≤ 23, minute ≤ 59, second ≤ 59), mirroring the `ValueError`
raised by `strptime`. -/
def parseDT (s : String) : Option DT :=
  match s.data with
  | [y1, y2, y3, y4, c1, mo1, mo2, c2, d1, d2, c3, h1, h2, c4, mi1, mi2, c5, s1, s2] =>
    if c1 = '-' ∧ c2 = '-' ∧ c3 = ' ' ∧ c4 = ':' ∧ c5 = ':' then
      match fourDigits y1 y2 y3 y4, twoDigits mo1 mo2, twoDigits d1 d2,
            twoDigits h1 h2, twoDigits mi1 mi2, twoDigits s1 s2 with
      | some y, some mo, some d, some h, some mi, some sec =>
          if 1 ≤ y ∧ 1 ≤ mo ∧ mo ≤ 12 ∧ 1 ≤ d ∧ d ≤ daysInMonth y mo ∧
             h ≤ 23 ∧ mi ≤ 59 ∧ sec ≤ 59 then
            some ⟨y, mo, d, h, mi, sec⟩
          else none
      | _, _, _, _, _, _ => none
    else none
  | _ => none

/-- Zero-padded two-digit decimal rendering (`f"{n:02d}"` for `n ≤ 99`). -/
def fmt2 (n : Nat) : String :=
  ⟨[Char.ofNat (48 + n / 10), Char.ofNat (48 + n % 10)]⟩

/-- `time.strftime('%H:%M:%S')`. -/
def fmtTOD (t : TOD) : String :=
  fmt2 t.hour ++ ":" ++ fmt2 t.minute ++ ":" ++ fmt2 t.second

/-- Round a rational to the nearest integer, ties to even: the rounding of
Python 3's builtin `round`. -/
def roundHalfEven (q : ℚ) : ℤ :=
  let f : ℤ := ⌊q⌋
  let frac : ℚ := q - f
  if frac < 1 / 2 then f
  else if 1 / 2 < frac then f + 1
  else if f % 2 = 0 then f else f + 1

/-- Python's `round(x, 2)`: round to 2 decimal digits (exact-rational model
of the float rounding, ties to even). -/
def round2 (q : ℚ) : ℚ :=
  (roundHalfEven (q * 100) : ℚ) / 100

/-- Code-point lexicographic order on character lists: how Python compares
strings. -/
def charListLe : List Char → List Char → Bool
  | [], _ => true
  | _ :: _, [] => false
  | a :: as, b :: bs =>
      if a.toNat < b.toNat then true
      else if a.toNat = b.toNat then charListLe as bs
      else false

/-- Python's string `<=`: code-point lexicographic comparison. -/
def strLe (a b : String) : Bool := charListLe a.data b.data

/-- Python's `str.strip()` (no argument): remove leading and trailing
whitespace. -/
def pyStrip (s : String) : String :=
  ⟨((s.data.dropWhile Char.isWhitespace).reverse.dropWhile
      Char.isWhitespace).reverse⟩

/-- One validated observation record as stored in `BUS_DATA`
(`load_bus_data`'s `processed_row`). -/
structure BusRecord where
  stop_name : String
  bus_id : String
  route : String
  hour_of_day : Nat
  scheduled_delay_minutes : PyFloat
  scheduled_arrival : String
  prediction_error_minutes : PyFloat
deriving DecidableEq, Repr

/-- The module-level record store: the `BUS_DATA` list together with the
`data_load_error` flag. -/
structure BusStore where
  BUS_DATA : List BusRecord
  data_load_error : Option String
deriving DecidableEq, Repr

/-- A raised `fastapi.HTTPException`. -/
structure HTTPException where
  status_code : Nat
  detail : String
deriving DecidableEq, Repr

/-- One CSV row as seen by `load_bus_data` after Python's `int()` / `float()`
conversion attempts: `none` in a numeric field models a missing column value
or a failed conversion (both paths skip the row); `none` in
`scheduled_arrival` models a missing column value. -/
structure RawRow where
  stop_name : String
  bus_id : String
  route : String
  hour : Option Int
  scheduled_delay_minutes : Option PyFloat
  scheduled_arrival : Option String
  prediction_error_minutes : Option PyFloat
deriving DecidableEq, Repr

/-- The per-row validation chain of `load_bus_data`: strip the string
fields, require them non-empty, require numeric fields present and
convertible, hour in 0..23, both float fields finite, the arrival string at
least 16 characters and parseable as `'%Y-%m-%d %H:%M:%S'`.  Returns the
processed record, or `none` when the row is skipped. -/
def validateRow (row : RawRow) : Option BusRecord :=
  let stop_name := pyStrip row.stop_name
  let bus_id := pyStrip row.bus_id
  let route := pyStrip row.route
  match row.hour, row.scheduled_delay_minutes, row.scheduled_arrival,
        row.prediction_error_minutes with
  | some hour, some delay_minutes, some scheduled_arrival_str,
    some prediction_error_minutes =>
    if stop_name ≠ "" ∧ bus_id ≠ "" ∧ route ≠ "" ∧ scheduled_arrival_str ≠ "" ∧
       0 ≤ hour ∧ hour ≤ 23 ∧ delay_minutes.isFinite = true ∧
       prediction_error_minutes.isFinite = true ∧
       ¬ scheduled_arrival_str.length < 16 ∧
       (parseDT scheduled_arrival_str).isSome = true then
      some ⟨stop_name, bus_id, route, hour.toNat, delay_minutes,
            scheduled_arrival_str, prediction_error_minutes⟩
    else none
  | _, _, _, _ => none

/-- `load_bus_data` on an already-opened CSV body: every row passing the
validation chain is appended to `BUS_DATA`; if no row was processed,
`data_load_error` is set (to one message when rows existed but were all
skipped, to another when the file had no data rows). -/
def load_bus_data (rows : List RawRow) : BusStore :=
  let records := rows.filterMap validateRow
  { BUS_DATA := records
    data_load_error :=
      if records.isEmpty then
        some (if rows.isEmpty then
          "CSV file appears empty or contains no processable data matching requirements."
        else
          "CSV contains rows, but none could be processed successfully due to data format or validation issues.")
      else none }

/-- `check_data_loaded`: a 500 when the load recorded an error, a 503 when
the store is empty, nothing otherwise. -/
def check_data_loaded (store : BusStore) : Option HTTPException :=
  match store.data_load_error with
  | some err => some ⟨500, "Internal Server Error: Could not load bus data. Reason: " ++ err⟩
  | none =>
    if store.BUS_DATA.isEmpty then
      some ⟨503, "Service Unavailable: No bus data has been loaded."⟩
    else none

/-- One entry of the `/stop-schedule` response (`StopRouteScheduleInfo`). -/
structure StopRouteScheduleInfo where
  route : String
  average_scheduled_delay_at_schedule : Option ℚ
  next_bus_id : Option String
  next_scheduled_arrival : Option String
deriving DecidableEq, Repr

/-- The `/stop-schedule` response (`StopScheduleResponse`). -/
structure StopScheduleResponse where
  stop_name : String
  requested_time : String
  routes_at_stop : List StopRouteScheduleInfo
deriving DecidableEq, Repr

/-- The candidate list built by `get_schedule_for_stop` for one route:
records whose `scheduled_arrival` parses and whose time-of-day component is
at or after the user's requested time, paired with the parsed timestamp. -/
def potentialNextArrivals (records : List BusRecord) (user_time : TOD) :
    List (DT × BusRecord) :=
  records.filterMap fun r =>
    match parseDT r.scheduled_arrival with
    | some dt => if TOD.le user_time dt.tod then some (dt, r) else none
    | none => none

/-- Steps 1-3 of `get_schedule_for_stop`'s per-route loop: filter by
time-of-day, sort by the full timestamp (`list.sort` is a stable sort by a
total preorder, so any stable sort — insertion sort here — produces the
identical list), take the first record. -/
def nextBusRecord (records : List BusRecord) (user_time : TOD) :
    Option BusRecord :=
  ((List.insertionSort (fun a b => DT.le a.1 b.1)
      (potentialNextArrivals records user_time)).head?).map Prod.snd

/-- The records of `all_records_for_route` whose `scheduled_arrival` string
equals the anchor's (exact string equality). -/
def matchingRecords (records : List BusRecord) (target_schedule_str : String) :
    List BusRecord :=
  records.filter fun r => r.scheduled_arrival = target_schedule_str

/-- The finite delay values contributing to the average: step 4's
`isinstance(..., float) and math.isfinite(...)` re-check. -/
def finiteDelays (records : List BusRecord) : List ℚ :=
  records.filterMap fun r =>
    match r.scheduled_delay_minutes with
    | .fin q => some q
    | .nonfin => none

/-- Step 4 of `get_schedule_for_stop`'s per-route loop: the average
scheduled delay over all records of the route matching the anchor's exact
`scheduled_arrival` string, rounded to 2 decimals; `none` when no finite
contributing value exists. -/
def avgScheduledDelay (records : List BusRecord) (anchor : BusRecord) :
    Option ℚ :=
  let contributing := finiteDelays (matchingRecords records anchor.scheduled_arrival)
  if contributing.length = 0 then none
  else some (round2 (contributing.sum / contributing.length))

/-- One iteration of `get_schedule_for_stop`'s per-route loop. -/
def routeScheduleInfo (route : String) (all_records_for_route : List BusRecord)
    (user_time : TOD) : StopRouteScheduleInfo :=
  let next_bus_record := nextBusRecord all_records_for_route user_time
  { route := route
    average_scheduled_delay_at_schedule :=
      next_bus_record.bind (avgScheduledDelay all_records_for_route)
    next_bus_id := next_bus_record.map BusRecord.bus_id
    next_scheduled_arrival := next_bus_record.map BusRecord.scheduled_arrival }

/-- First-appearance-order deduplication (accumulating the keys already
seen): the key order of a Python dict populated by insertion. -/
def dedupFirstAux (seen : List String) : List String → List String
  | [] => []
  | a :: l =>
      if a ∈ seen then dedupFirstAux seen l
      else a :: dedupFirstAux (a :: seen) l

/-- First-appearance-order deduplication: the key order of a Python dict
populated by insertion. -/
def dedupFirst (l : List String) : List String := dedupFirstAux [] l

/-- The keys of `routes_data`: the distinct non-empty routes of the stop's
records, in first-appearance order. -/
def routeKeys (stop_specific_data : List BusRecord) : List String :=
  dedupFirst ((stop_specific_data.map BusRecord.route).filter fun rt => rt ≠ "")

/-- `stop_specific_data`: the records of the requested stop. -/
def stopData (store : BusStore) (stop_name : String) : List BusRecord :=
  store.BUS_DATA.filter fun r => r.stop_name = stop_name

/-- The per-route loop of `get_schedule_for_stop` followed by the final
`sort(key=lambda r: r.route)`: one `StopRouteScheduleInfo` per distinct
route of the stop's records, sorted by route name. -/
def stopRouteInfos (stop_specific_data : List BusRecord) (user_time : TOD) :
    List StopRouteScheduleInfo :=
  List.insertionSort (fun a b => strLe a.route b.route = true)
    ((routeKeys stop_specific_data).map fun route =>
      routeScheduleInfo route
        (stop_specific_data.filter fun r => r.route = route) user_time)

/-- The `/stop-schedule` endpoint `get_schedule_for_stop`: check the store,
filter to the requested stop (404 when empty), group by route, resolve the
next arrival and its delay average per route, and return the entries sorted
by route name. -/
def get_schedule_for_stop (store : BusStore) (stop_name : String)
    (hour minute : Nat) : Except HTTPException StopScheduleResponse :=
  match check_data_loaded store with
  | some e => .error e
  | none =>
    if (stopData store stop_name).isEmpty then
      .error ⟨404, "No data found for stop name: " ++ stop_name⟩
    else
      .ok { stop_name := stop_name
            requested_time := fmt2 hour ++ ":" ++ fmt2 minute
            routes_at_stop :=
              stopRouteInfos (stopData store stop_name) ⟨hour, minute, 0⟩ }

/-- The prediction model artifact: the `smoothed_curve` rows
`(minute_of_day, predicted_delay)` of the loaded 2-column array. -/
structure ModelData where
  smoothed_curve : List (ℚ × ℚ)
deriving DecidableEq, Repr

/-- The prediction module's state: the `MODEL_DATA` global and the
`model_load_error` flag. -/
structure ModelState where
  MODEL_DATA : Option ModelData
  model_load_error : Option String
deriving DecidableEq, Repr

/-- `check_model_loaded`: a 500 when the load recorded an error, a 503 when
no model is loaded, nothing otherwise. -/
def check_model_loaded (ms : ModelState) : Option HTTPException :=
  match ms.model_load_error with
  | some err => some ⟨500, "Internal Server Error: Could not load prediction model. Reason: " ++ err⟩
  | none =>
    match ms.MODEL_DATA with
    | none => some ⟨503, "Service Unavailable: Prediction model not loaded."⟩
    | some _ => none

/-- The loop body of `find_next_scheduled_time`: the time-of-day components
of all records (any stop, any route) whose `scheduled_arrival` parses and
whose time-of-day is at or after the user's time.  The Python code
accumulates these into a set; only membership and the minimum are ever
used, so the list (with duplicates) carries the same information. -/
def potentialNextTimes (records : List BusRecord) (user_time : TOD) :
    List TOD :=
  records.filterMap fun r =>
    match parseDT r.scheduled_arrival with
    | some dt => if TOD.le user_time dt.tod then some dt.tod else none
    | none => none

/-- `min` over a non-empty collection of `datetime.time` values. -/
def minTOD (t : TOD) (ts : List TOD) : TOD :=
  ts.foldl (fun a b => if TOD.le a b then a else b) t

/-- `find_next_scheduled_time`: `none` when the bus-data check fails
(the raised `HTTPException` is caught and swallowed), when the user time
string does not parse, or when no record's time-of-day is at or after the
user's time; otherwise the minimum of the collected time-of-day values. -/
def find_next_scheduled_time (store : BusStore) (user_time_str : String) :
    Option TOD :=
  if (check_data_loaded store).isSome then none
  else
    match parseTOD user_time_str with
    | none => none
    | some user_time =>
      match potentialNextTimes store.BUS_DATA user_time with
      | [] => none
      | t :: ts => some (minTOD t ts)

/-- `hour*60 + minute + second/60`: the query time in (exact-rational)
minutes since midnight. -/
def targetMinutes (t : TOD) : ℚ :=
  (t.hour : ℚ) * 60 + (t.minute : ℚ) + (t.second : ℚ) / 60

/-- Tail of `np.interp` over an ascending sample list: `x0, y0` is the last
sample already passed (so `t > x0`); linearly interpolate in the first
bracket whose right endpoint is at or after `t`, or clamp to the final
sample's y. -/
def npInterpAux (t : ℚ) (x0 y0 : ℚ) : List (ℚ × ℚ) → ℚ
  | [] => y0
  | (x1, y1) :: rest =>
      if t ≤ x1 then y0 + (y1 - y0) * (t - x0) / (x1 - x0)
      else npInterpAux t x1 y1 rest

/-- `np.interp(t, xs, ys)` for an ascending sample list: clamp below the
first sample and above the last, linear interpolation in between; `none`
for an empty sample list (where `np.interp` raises and the caller returns
`None`). -/
def npInterp (t : ℚ) : List (ℚ × ℚ) → Option ℚ
  | [] => none
  | (x0, y0) :: rest => some (if t ≤ x0 then y0 else npInterpAux t x0 y0 rest)

/-- `predict_delay_from_model`: parse the target time string, convert it to
minutes since midnight, and interpolate on the smoothed curve; `none` when
the time string does not parse or the curve is empty (the code's caught
`ValueError` paths).  The structural re-validation of `smoothed_curve`
always passes here because `ModelData` carries the array by construction. -/
def predict_delay_from_model (model_data : ModelData) (target_time_str : String) :
    Option ℚ :=
  match parseTOD target_time_str with
  | none => none
  | some t => npInterp (targetMinutes t) model_data.smoothed_curve

/-- The `/predict-next-delay` response (`NextPredictionResponse`). -/
structure NextPredictionResponse where
  requested_time : String
  next_scheduled_time_used : Option String
  predicted_delay_minutes : Option ℚ
  message : String
deriving DecidableEq, Repr

/-- The `/predict-next-delay` endpoint `get_next_delay_prediction`: check
the model, resolve the global next scheduled time-of-day, and predict the
delay for it; a `none` resolution (which includes a failed record store)
yields a successful response with null fields, not an error. -/
def get_next_delay_prediction (store : BusStore) (ms : ModelState)
    (time_str : String) : Except HTTPException NextPredictionResponse :=
  match check_model_loaded ms, ms.MODEL_DATA with
  | some e, _ => .error e
  | none, none => .error ⟨503, "Service Unavailable: Prediction model not loaded."⟩
  | none, some model_data =>
    match find_next_scheduled_time store time_str with
    | none =>
      .ok { requested_time := time_str
            next_scheduled_time_used := none
            predicted_delay_minutes := none
            message :=
              match parseTOD time_str with
              | some _ => "No scheduled bus found at or after the requested time in the historical data."
              | none => "Invalid requested time format provided." }
    | some next_schedule_time_obj =>
      let next_schedule_time_str := fmtTOD next_schedule_time_obj
      match predict_delay_from_model model_data next_schedule_time_str with
      | some predicted_value =>
        .ok { requested_time := time_str
              next_scheduled_time_used := some next_schedule_time_str
              predicted_delay_minutes := some (round2 predicted_value)
              message := "Prediction successful for the next scheduled bus time." }
      | none =>
        .ok { requested_time := time_str
              next_scheduled_time_used := some next_schedule_time_str
              predicted_delay_minutes := none
              message := "Found next schedule time (" ++ next_schedule_time_str ++ "), but failed to get AI prediction for it. Check server logs." }

/-! ## Helper lemmas -/

theorem insertionSort_head?_min {α : Type} {r : α → α → Prop} [DecidableRel r]
    [IsTotal α r] [IsTrans α r]
    {l : List α} {x : α} (h : (List.insertionSort r l).head? = some x) :
    x ∈ l ∧ ∀ y ∈ l, r x y := by
  have hperm := List.perm_insertionSort r l
  have hsorted := List.sorted_insertionSort r l
  cases hms : List.insertionSort r l with
  | nil => rw [hms] at h; simp at h
  | cons a rest =>
    rw [hms] at h hperm hsorted
    simp only [List.head?_cons, Option.some.injEq] at h
    subst h
    refine ⟨hperm.mem_iff.mp (List.mem_cons_self _ _), ?_⟩
    intro y hy
    rcases List.mem_cons.mp (hperm.mem_iff.mpr hy) with rfl | hyr
    · rcases IsTotal.total (r := r) y y with hyy | hyy <;> exact hyy
    · exact List.rel_of_sorted_cons hsorted y hyr

theorem insertionSort_eq_nil_iff {α : Type} {r : α → α → Prop} [DecidableRel r]
    {l : List α} : List.insertionSort r l = [] ↔ l = [] := by
  constructor <;> intro h
  · have hlen := (List.perm_insertionSort r l).length_eq
    rw [h] at hlen
    exact List.length_eq_zero.mp hlen.symm
  · subst h
    rfl

instance : IsTotal (DT × BusRecord) fun a b => DT.le a.1 b.1 :=
  ⟨fun a b => dt_le_total a.1 b.1⟩

instance : IsTrans (DT × BusRecord) fun a b => DT.le a.1 b.1 :=
  ⟨fun _ _ _ => dt_le_trans⟩

theorem mem_potentialNextArrivals {recs : List BusRecord} {t : TOD} {dt : DT}
    {r : BusRecord} :
    (dt, r) ∈ potentialNextArrivals recs t ↔
      r ∈ recs ∧ parseDT r.scheduled_arrival = some dt ∧ TOD.le t dt.tod := by
  unfold potentialNextArrivals
  rw [List.mem_filterMap]
  constructor
  · rintro ⟨a, ha, hfa⟩
    cases hp : parseDT a.scheduled_arrival with
    | none => rw [hp] at hfa; simp at hfa
    | some dt' =>
      rw [hp] at hfa
      dsimp only at hfa
      by_cases hle : TOD.le t dt'.tod
      · rw [if_pos hle, Option.some.injEq, Prod.mk.injEq] at hfa
        obtain ⟨rfl, rfl⟩ := hfa
        exact ⟨ha, hp, hle⟩
      · rw [if_neg hle] at hfa; simp at hfa
  · rintro ⟨hr, hp, hle⟩
    refine ⟨r, hr, ?_⟩
    rw [hp]
    dsimp only
    rw [if_pos hle]

/-- What a resolved next-bus record means: it is one of the route's records,
its arrival parses, the time-of-day is at or after the query time, and its
full timestamp is minimal among all such candidates. -/
theorem nextBusRecord_spec {recs : List BusRecord} {t : TOD} {rec : BusRecord}
    (h : nextBusRecord recs t = some rec) :
    ∃ dt, parseDT rec.scheduled_arrival = some dt ∧ rec ∈ recs ∧
      TOD.le t dt.tod ∧
      ∀ r' ∈ recs, ∀ dt', parseDT r'.scheduled_arrival = some dt' →
        TOD.le t dt'.tod → DT.le dt dt' := by
  unfold nextBusRecord at h
  rw [Option.map_eq_some'] at h
  obtain ⟨⟨dt, rec'⟩, hhead, hsnd⟩ := h
  cases hsnd
  obtain ⟨hmem, hle⟩ := insertionSort_head?_min hhead
  rw [mem_potentialNextArrivals] at hmem
  refine ⟨dt, hmem.2.1, hmem.1, hmem.2.2, ?_⟩
  intro r' hr' dt' hp' hle'
  have hcand : (dt', r') ∈ potentialNextArrivals recs t :=
    mem_potentialNextArrivals.mpr ⟨hr', hp', hle'⟩
  exact hle _ hcand

/-- The resolver returns nothing exactly when no record of the subset has a
parseable arrival with time-of-day at or after the query time. -/
theorem nextBusRecord_eq_none {recs : List BusRecord} {t : TOD} :
    nextBusRecord recs t = none ↔
      ∀ r ∈ recs, ∀ dt, parseDT r.scheduled_arrival = some dt →
        ¬ TOD.le t dt.tod := by
  unfold nextBusRecord
  rw [Option.map_eq_none']
  constructor
  · intro h r hr dt hp hle
    have hnil : potentialNextArrivals recs t = [] := by
      by_contra hne
      cases hms : List.insertionSort (fun a b => DT.le a.1 b.1)
          (potentialNextArrivals recs t) with
      | nil => exact hne (insertionSort_eq_nil_iff.mp hms)
      | cons a rest => rw [hms] at h; simp at h
    have : (dt, r) ∈ potentialNextArrivals recs t :=
      mem_potentialNextArrivals.mpr ⟨hr, hp, hle⟩
    rw [hnil] at this
    simp at this
  · intro h
    have hnil : potentialNextArrivals recs t = [] := by
      cases hpn : potentialNextArrivals recs t with
      | nil => rfl
      | cons a rest =>
        exfalso
        have : (a.1, a.2) ∈ potentialNextArrivals recs t := by
          rw [hpn]; simp
        rw [mem_potentialNextArrivals] at this
        exact h a.2 this.1 a.1 this.2.1 this.2.2
    rw [hnil]
    rfl

/-- Over records whose delays are all finite, the defensive finiteness
filter keeps every record. -/
theorem finiteDelays_of_all_finite {l : List BusRecord}
    (hfin : ∀ r ∈ l, r.scheduled_delay_minutes.isFinite = true) :
    finiteDelays l = l.map (fun r => r.scheduled_delay_minutes.val) := by
  induction l with
  | nil => rfl
  | cons a l ih =>
    have ha := hfin a (List.mem_cons_self _ _)
    have ih' := ih fun r hr => hfin r (List.mem_cons_of_mem _ hr)
    cases hv : a.scheduled_delay_minutes with
    | fin q =>
      unfold finiteDelays at *
      simp only [List.filterMap_cons, hv, List.map_cons]
      rw [ih']
      simp [PyFloat.val, hv]
    | nonfin => rw [hv] at ha; simp [PyFloat.isFinite] at ha

theorem mem_matchingRecords {l : List BusRecord} {s : String} {r : BusRecord} :
    r ∈ matchingRecords l s ↔ r ∈ l ∧ r.scheduled_arrival = s := by
  unfold matchingRecords
  rw [List.mem_filter]
  simp

theorem mem_dedupFirstAux :
    ∀ (l : List String) (seen : List String) (x : String),
      x ∈ dedupFirstAux seen l ↔ x ∈ l ∧ x ∉ seen := by
  intro l
  induction l with
  | nil => intro seen x; simp [dedupFirstAux]
  | cons a l ih =>
    intro seen x
    unfold dedupFirstAux
    by_cases ha : a ∈ seen
    · rw [if_pos ha, ih]
      constructor
      · rintro ⟨hm, hs⟩; exact ⟨List.mem_cons_of_mem _ hm, hs⟩
      · rintro ⟨hm, hs⟩
        rcases List.mem_cons.mp hm with rfl | hm'
        · exact absurd ha hs
        · exact ⟨hm', hs⟩
    · rw [if_neg ha]
      rw [List.mem_cons, ih]
      constructor
      · rintro (rfl | ⟨hm, hs⟩)
        · exact ⟨List.mem_cons_self _ _, ha⟩
        · exact ⟨List.mem_cons_of_mem _ hm,
            fun hx => hs (List.mem_cons_of_mem _ hx)⟩
      · rintro ⟨hm, hs⟩
        rcases List.mem_cons.mp hm with rfl | hm'
        · exact Or.inl rfl
        · by_cases hxa : x = a
          · exact Or.inl hxa
          · refine Or.inr ⟨hm', fun hx => ?_⟩
            rcases List.mem_cons.mp hx with h | h
            · exact hxa h
            · exact hs h

theorem mem_dedupFirst {l : List String} {x : String} :
    x ∈ dedupFirst l ↔ x ∈ l := by
  unfold dedupFirst
  rw [mem_dedupFirstAux]
  simp

theorem nodup_dedupFirstAux :
    ∀ (l : List String) (seen : List String), (dedupFirstAux seen l).Nodup := by
  intro l
  induction l with
  | nil => intro seen; simp [dedupFirstAux]
  | cons a l ih =>
    intro seen
    unfold dedupFirstAux
    by_cases ha : a ∈ seen
    · rw [if_pos ha]; exact ih seen
    · rw [if_neg ha, List.nodup_cons]
      refine ⟨?_, ih (a :: seen)⟩
      intro hmem
      exact (mem_dedupFirstAux l (a :: seen) a).mp hmem |>.2
        (List.mem_cons_self _ _)

theorem nodup_dedupFirst (l : List String) : (dedupFirst l).Nodup :=
  nodup_dedupFirstAux l []

theorem mem_routeKeys {ssd : List BusRecord} {rt : String} :
    rt ∈ routeKeys ssd ↔ rt ≠ "" ∧ ∃ r ∈ ssd, r.route = rt := by
  unfold routeKeys
  rw [mem_dedupFirst, List.mem_filter]
  simp only [List.mem_map, decide_eq_true_eq]
  tauto

theorem nodup_routeKeys (ssd : List BusRecord) : (routeKeys ssd).Nodup :=
  nodup_dedupFirst _

theorem charListLe_trans : ∀ a b c : List Char,
    charListLe a b = true → charListLe b c = true → charListLe a c = true := by
  intro a
  induction a with
  | nil => intro b c _ _; rfl
  | cons x xs ih =>
    intro b c hab hbc
    cases b with
    | nil => simp [charListLe] at hab
    | cons y ys =>
      cases c with
      | nil => simp [charListLe] at hbc
      | cons z zs =>
        simp only [charListLe] at hab hbc ⊢
        by_cases hxy : x.toNat < y.toNat
        · by_cases hyz : y.toNat < z.toNat
          · have : x.toNat < z.toNat := Nat.lt_trans hxy hyz
            simp [this]
          · by_cases hyz' : y.toNat = z.toNat
            · have : x.toNat < z.toNat := hyz' ▸ hxy
              simp [this]
            · rw [if_neg hyz, if_neg hyz'] at hbc; exact absurd hbc (by simp)
        · by_cases hxy' : x.toNat = y.toNat
          · rw [if_neg hxy, if_pos hxy'] at hab
            by_cases hyz : y.toNat < z.toNat
            · have : x.toNat < z.toNat := hxy' ▸ hyz
              simp [this]
            · by_cases hyz' : y.toNat = z.toNat
              · rw [if_neg hyz, if_pos hyz'] at hbc
                have hxz : x.toNat = z.toNat := hxy'.trans hyz'
                have hxz' : ¬ x.toNat < z.toNat := by omega
                rw [if_neg hxz', if_pos hxz]
                exact ih ys zs hab hbc
              · rw [if_neg hyz, if_neg hyz'] at hbc; exact absurd hbc (by simp)
          · rw [if_neg hxy, if_neg hxy'] at hab; exact absurd hab (by simp)

theorem charListLe_total : ∀ a b : List Char,
    (charListLe a b || charListLe b a) = true := by
  intro a
  induction a with
  | nil => intro b; rfl
  | cons x xs ih =>
    intro b
    cases b with
    | nil => rfl
    | cons y ys =>
      simp only [charListLe]
      by_cases hxy : x.toNat < y.toNat
      · have : ¬ y.toNat < x.toNat := by omega
        simp [hxy]
      · by_cases hxy' : x.toNat = y.toNat
        · have h1 : ¬ y.toNat < x.toNat := by omega
          have h2 : y.toNat = x.toNat := hxy'.symm
          rw [if_neg hxy, if_pos hxy', if_neg h1, if_pos h2]
          exact ih ys
        · have : y.toNat < x.toNat := by omega
          simp [hxy, hxy', this]

instance : IsTotal StopRouteScheduleInfo fun a b => strLe a.route b.route = true :=
  ⟨fun a b => by
    have h := charListLe_total a.route.data b.route.data
    rcases Bool.or_eq_true_iff.mp h with h1 | h1
    · exact Or.inl h1
    · exact Or.inr h1⟩

instance : IsTrans StopRouteScheduleInfo fun a b => strLe a.route b.route = true :=
  ⟨fun a b c => charListLe_trans a.route.data b.route.data c.route.data⟩

theorem route_routeScheduleInfo (route : String) (recs : List BusRecord)
    (t : TOD) : (routeScheduleInfo route recs t).route = route := rfl

/-- Success characterization of the `/stop-schedule` endpoint. -/
theorem get_schedule_for_stop_ok_iff {store : BusStore} {stop_name : String}
    {hour minute : Nat} {resp : StopScheduleResponse} :
    get_schedule_for_stop store stop_name hour minute = .ok resp ↔
      check_data_loaded store = none ∧ stopData store stop_name ≠ [] ∧
      resp = { stop_name := stop_name
               requested_time := fmt2 hour ++ ":" ++ fmt2 minute
               routes_at_stop :=
                 stopRouteInfos (stopData store stop_name) ⟨hour, minute, 0⟩ } := by
  unfold get_schedule_for_stop
  cases hc : check_data_loaded store with
  | some e => simp
  | none =>
    dsimp only
    by_cases hempty : (stopData store stop_name).isEmpty = true
    · rw [if_pos hempty]
      rw [List.isEmpty_iff] at hempty
      simp [hempty]
    · rw [if_neg hempty]
      rw [List.isEmpty_iff] at hempty
      constructor
      · intro h
        injection h with h2
        exact ⟨rfl, hempty, h2.symm⟩
      · rintro ⟨-, -, rfl⟩
        rfl

theorem mem_stopRouteInfos {ssd : List BusRecord} {t : TOD}
    {e : StopRouteScheduleInfo} :
    e ∈ stopRouteInfos ssd t ↔
      ∃ rt ∈ routeKeys ssd,
        e = routeScheduleInfo rt (ssd.filter fun r => r.route = rt) t := by
  unfold stopRouteInfos
  rw [(List.perm_insertionSort _ _).mem_iff, List.mem_map]
  constructor
  · rintro ⟨rt, hrt, rfl⟩; exact ⟨rt, hrt, rfl⟩
  · rintro ⟨rt, hrt, rfl⟩; exact ⟨rt, hrt, rfl⟩

theorem sorted_stopRouteInfos (ssd : List BusRecord) (t : TOD) :
    (stopRouteInfos ssd t).Pairwise fun a b => strLe a.route b.route = true :=
  List.sorted_insertionSort _ _

theorem map_route_stopRouteInfos (ssd : List BusRecord) (t : TOD) :
    ((stopRouteInfos ssd t).map StopRouteScheduleInfo.route).Perm
      (routeKeys ssd) := by
  unfold stopRouteInfos
  have hperm := (List.perm_insertionSort
    (fun a b => strLe a.route b.route = true)
    ((routeKeys ssd).map fun route =>
      routeScheduleInfo route (ssd.filter fun r => r.route = route) t)).map
    StopRouteScheduleInfo.route
  refine hperm.trans ?_
  rw [List.map_map]
  have : (StopRouteScheduleInfo.route ∘ fun route =>
      routeScheduleInfo route (ssd.filter fun r => r.route = route) t) = id := by
    funext rt; rfl
  rw [this, List.map_id]

theorem nodup_route_stopRouteInfos (ssd : List BusRecord) (t : TOD) :
    ((stopRouteInfos ssd t).map StopRouteScheduleInfo.route).Nodup :=
  ((map_route_stopRouteInfos ssd t).nodup_iff).mpr (nodup_routeKeys ssd)

/-- Strictly increasing x-values, the shape `np.interp` and the LOWESS
artifact assume. -/
def StrictCurve (curve : List (ℚ × ℚ)) : Prop :=
  curve.Pairwise fun a b => a.1 < b.1

theorem interp_at_right {x0 y0 x1 y1 : ℚ} (h : x0 < x1) :
    y0 + (y1 - y0) * (x1 - x0) / (x1 - x0) = y1 := by
  have hne : x1 - x0 ≠ 0 := sub_ne_zero.mpr (ne_of_gt h)
  field_simp

theorem npInterp_cons (t x0 y0 : ℚ) (rest : List (ℚ × ℚ)) :
    npInterp t ((x0, y0) :: rest) =
      some (if t ≤ x0 then y0 else npInterpAux t x0 y0 rest) := rfl

theorem npInterpAux_cons (t x0 y0 x1 y1 : ℚ) (rest : List (ℚ × ℚ)) :
    npInterpAux t x0 y0 ((x1, y1) :: rest) =
      if t ≤ x1 then y0 + (y1 - y0) * (t - x0) / (x1 - x0)
      else npInterpAux t x1 y1 rest := rfl

theorem npInterp_clamp_left {x0 y0 : ℚ} {rest : List (ℚ × ℚ)} {t : ℚ}
    (h : t ≤ x0) : npInterp t ((x0, y0) :: rest) = some y0 := by
  rw [npInterp_cons, if_pos h]

theorem npInterpAux_clamp_right :
    ∀ (rest : List (ℚ × ℚ)) (x0 y0 xl yl t : ℚ),
      StrictCurve ((x0, y0) :: rest) →
      ((x0, y0) :: rest).getLast? = some (xl, yl) → xl ≤ t →
      npInterpAux t x0 y0 rest = yl := by
  intro rest
  induction rest with
  | nil =>
    intro x0 y0 xl yl t _ hlast _
    rw [List.getLast?_singleton] at hlast
    injection hlast with h
    rw [Prod.mk.injEq] at h
    rw [← h.2]
    rfl
  | cons p r ih =>
    obtain ⟨x1, y1⟩ := p
    intro x0 y0 xl yl t hpw hlast hle
    rw [List.getLast?_cons_cons] at hlast
    have hpw' : StrictCurve ((x1, y1) :: r) := (List.pairwise_cons.mp hpw).2
    have hx01 : x0 < x1 := (List.pairwise_cons.mp hpw).1 (x1, y1) (List.mem_cons_self _ _)
    rw [npInterpAux_cons]
    by_cases hbr : t ≤ x1
    · rw [if_pos hbr]
      have hmem : (xl, yl) ∈ (x1, y1) :: r := List.mem_of_mem_getLast? hlast
      rcases List.mem_cons.mp hmem with heq | hmemr
      · rw [Prod.mk.injEq] at heq
        obtain ⟨h1, h2⟩ := heq
        have ht : t = x1 := le_antisymm hbr (h1 ▸ hle)
        rw [h2, ht]
        exact interp_at_right hx01
      · exfalso
        have hx1l : x1 < xl := (List.pairwise_cons.mp hpw').1 (xl, yl) hmemr
        linarith
    · rw [if_neg hbr]
      exact ih x1 y1 xl yl t hpw' hlast hle

theorem npInterp_clamp_right {curve : List (ℚ × ℚ)} {xl yl t : ℚ}
    (hpw : StrictCurve curve) (hlast : curve.getLast? = some (xl, yl))
    (hle : xl ≤ t) : npInterp t curve = some yl := by
  cases curve with
  | nil => simp at hlast
  | cons p rest =>
    obtain ⟨x0, y0⟩ := p
    rw [npInterp_cons, Option.some.injEq]
    by_cases hl : t ≤ x0
    · rw [if_pos hl]
      cases rest with
      | nil =>
        rw [List.getLast?_singleton] at hlast
        injection hlast with h
        rw [Prod.mk.injEq] at h
        exact h.2
      | cons q r =>
        exfalso
        rw [List.getLast?_cons_cons] at hlast
        have hmem : (xl, yl) ∈ q :: r := List.mem_of_mem_getLast? hlast
        have : x0 < xl := (List.pairwise_cons.mp hpw).1 (xl, yl) hmem
        linarith
    · rw [if_neg hl]
      exact npInterpAux_clamp_right rest x0 y0 xl yl t hpw hlast hle

theorem npInterpAux_knot :
    ∀ (rest : List (ℚ × ℚ)) (x0 y0 x y : ℚ),
      StrictCurve ((x0, y0) :: rest) → (x, y) ∈ rest → x0 < x →
      npInterpAux x x0 y0 rest = y := by
  intro rest
  induction rest with
  | nil => intro _ _ _ _ _ hmem; simp at hmem
  | cons p r ih =>
    obtain ⟨x1, y1⟩ := p
    intro x0 y0 x y hpw hmem hx0x
    have hpw' : StrictCurve ((x1, y1) :: r) := (List.pairwise_cons.mp hpw).2
    have hx01 : x0 < x1 := (List.pairwise_cons.mp hpw).1 (x1, y1) (List.mem_cons_self _ _)
    rw [npInterpAux_cons]
    rcases List.mem_cons.mp hmem with heq | hmemr
    · rw [Prod.mk.injEq] at heq
      obtain ⟨h1, h2⟩ := heq
      subst h1; subst h2
      rw [if_pos le_rfl]
      exact interp_at_right hx0x
    · have hx1x : x1 < x := (List.pairwise_cons.mp hpw').1 (x, y) hmemr
      rw [if_neg (not_le.mpr hx1x)]
      exact ih x1 y1 x y hpw' hmemr hx1x

theorem npInterp_knot {curve : List (ℚ × ℚ)} {x y : ℚ}
    (hpw : StrictCurve curve) (hmem : (x, y) ∈ curve) :
    npInterp x curve = some y := by
  cases curve with
  | nil => simp at hmem
  | cons p rest =>
    obtain ⟨x0, y0⟩ := p
    rw [npInterp_cons, Option.some.injEq]
    rcases List.mem_cons.mp hmem with heq | hmemr
    · rw [Prod.mk.injEq] at heq
      obtain ⟨h1, h2⟩ := heq
      subst h1; subst h2
      rw [if_pos le_rfl]
    · have hx0x : x0 < x := (List.pairwise_cons.mp hpw).1 (x, y) hmemr
      rw [if_neg (not_le.mpr hx0x)]
      exact npInterpAux_knot rest x0 y0 x y hpw hmemr hx0x

theorem npInterpAux_bracket {x0 y0 x1 y1 t : ℚ} {l2 : List (ℚ × ℚ)}
    (hx0t : x0 ≤ t) (htx1 : t ≤ x1) :
    ∀ (l1 : List (ℚ × ℚ)) (xp yp : ℚ),
      StrictCurve ((xp, yp) :: (l1 ++ (x0, y0) :: (x1, y1) :: l2)) →
      npInterpAux t xp yp (l1 ++ (x0, y0) :: (x1, y1) :: l2) =
        y0 + (y1 - y0) * (t - x0) / (x1 - x0) := by
  intro l1
  induction l1 with
  | nil =>
    intro xp yp hpw
    have hpx0 : xp < x0 :=
      (List.pairwise_cons.mp hpw).1 (x0, y0) (by simp)
    simp only [List.nil_append] at hpw ⊢
    rw [npInterpAux_cons]
    by_cases hx0 : t ≤ x0
    · rw [if_pos hx0]
      have ht : t = x0 := le_antisymm hx0 hx0t
      subst ht
      rw [interp_at_right hpx0]
      have hz : (y1 - y0) * (t - t) / (x1 - t) = 0 := by
        rw [sub_self, mul_zero, zero_div]
      rw [sub_self, mul_zero, zero_div, add_zero]
    · rw [if_neg hx0]
      rw [npInterpAux_cons, if_pos htx1]
  | cons q l1' ih =>
    intro xp yp hpw
    obtain ⟨xq, yq⟩ := q
    have hpw' : StrictCurve ((xq, yq) :: (l1' ++ (x0, y0) :: (x1, y1) :: l2)) :=
      (List.pairwise_cons.mp hpw).2
    have hqx0 : xq < x0 :=
      (List.pairwise_cons.mp hpw').1 (x0, y0) (by simp)
    simp only [List.cons_append]
    rw [npInterpAux_cons]
    rw [if_neg (not_le.mpr (by linarith))]
    exact ih xq yq hpw'

theorem npInterp_bracket {x0 y0 x1 y1 t : ℚ} {l1 l2 : List (ℚ × ℚ)}
    (hpw : StrictCurve (l1 ++ (x0, y0) :: (x1, y1) :: l2))
    (hx0t : x0 ≤ t) (htx1 : t ≤ x1) :
    npInterp t (l1 ++ (x0, y0) :: (x1, y1) :: l2) =
      some (y0 + (y1 - y0) * (t - x0) / (x1 - x0)) := by
  cases l1 with
  | nil =>
    simp only [List.nil_append] at hpw ⊢
    rw [npInterp_cons, Option.some.injEq]
    by_cases hl : t ≤ x0
    · rw [if_pos hl]
      have ht : t = x0 := le_antisymm hl hx0t
      subst ht
      rw [sub_self, mul_zero, zero_div, add_zero]
    · rw [if_neg hl]
      rw [npInterpAux_cons, if_pos htx1]
  | cons p l1' =>
    obtain ⟨xp, yp⟩ := p
    simp only [List.cons_append] at hpw ⊢
    have hpx0 : xp < x0 := (List.pairwise_cons.mp hpw).1 (x0, y0) (by simp)
    rw [npInterp_cons, Option.some.injEq]
    rw [if_neg (not_le.mpr (by linarith))]
    exact npInterpAux_bracket hx0t htx1 l1' xp yp hpw

theorem npInterp_single {x y t : ℚ} : npInterp t [(x, y)] = some y := by
  rw [npInterp_cons, Option.some.injEq]
  by_cases h : t ≤ x
  · rw [if_pos h]
  · rw [if_neg h]
    rfl

theorem minTOD_spec : ∀ (ts : List TOD) (t : TOD),
    minTOD t ts ∈ t :: ts ∧ TOD.le (minTOD t ts) t ∧
      ∀ x ∈ ts, TOD.le (minTOD t ts) x := by
  intro ts
  induction ts with
  | nil =>
    intro t
    exact ⟨List.mem_singleton.mpr rfl, tod_le_refl t, by simp⟩
  | cons a ts ih =>
    intro t
    have hstep : minTOD t (a :: ts) = minTOD (if TOD.le t a then t else a) ts := by
      unfold minTOD
      rw [List.foldl_cons]
    by_cases h : TOD.le t a
    · rw [hstep, if_pos h]
      obtain ⟨hmem, hle, hall⟩ := ih t
      refine ⟨?_, hle, ?_⟩
      · rcases List.mem_cons.mp hmem with heq | hmem'
        · rw [heq]; exact List.mem_cons_self _ _
        · exact List.mem_cons_of_mem _ (List.mem_cons_of_mem _ hmem')
      · intro x hx
        rcases List.mem_cons.mp hx with rfl | hx'
        · exact tod_le_trans hle h
        · exact hall x hx'
    · rw [hstep, if_neg h]
      obtain ⟨hmem, hle, hall⟩ := ih a
      have hat : TOD.le a t := (tod_le_total t a).resolve_left h
      refine ⟨?_, tod_le_trans hle hat, ?_⟩
      · rcases List.mem_cons.mp hmem with heq | hmem'
        · rw [heq]; exact List.mem_cons_of_mem _ (List.mem_cons_self _ _)
        · exact List.mem_cons_of_mem _ (List.mem_cons_of_mem _ hmem')
      · intro x hx
        rcases List.mem_cons.mp hx with rfl | hx'
        · exact hle
        · exact hall x hx'

theorem mem_potentialNextTimes {recs : List BusRecord} {t tm : TOD} :
    tm ∈ potentialNextTimes recs t ↔
      TOD.le t tm ∧ ∃ r ∈ recs, ∃ dt, parseDT r.scheduled_arrival = some dt ∧
        dt.tod = tm := by
  unfold potentialNextTimes
  rw [List.mem_filterMap]
  constructor
  · rintro ⟨a, ha, hfa⟩
    cases hp : parseDT a.scheduled_arrival with
    | none => rw [hp] at hfa; simp at hfa
    | some dt =>
      rw [hp] at hfa
      dsimp only at hfa
      by_cases hle : TOD.le t dt.tod
      · rw [if_pos hle, Option.some.injEq] at hfa
        subst hfa
        exact ⟨hle, a, ha, dt, hp, rfl⟩
      · rw [if_neg hle] at hfa; simp at hfa
  · rintro ⟨hle, r, hr, dt, hp, rfl⟩
    refine ⟨r, hr, ?_⟩
    rw [hp]
    dsimp only
    rw [if_pos hle]

/-- What `find_next_scheduled_time` computes when the store is healthy and
the user time parses: `none` exactly when no record's time-of-day is at or
after the user time, and otherwise the minimum such time-of-day. -/
theorem find_next_scheduled_time_spec {store : BusStore}
    {user_time_str : String} {user_time : TOD}
    (hok : check_data_loaded store = none)
    (hp : parseTOD user_time_str = some user_time) :
    (find_next_scheduled_time store user_time_str = none ↔
      potentialNextTimes store.BUS_DATA user_time = []) ∧
    ∀ tm, find_next_scheduled_time store user_time_str = some tm →
      tm ∈ potentialNextTimes store.BUS_DATA user_time ∧
        ∀ x ∈ potentialNextTimes store.BUS_DATA user_time, TOD.le tm x := by
  unfold find_next_scheduled_time
  rw [hok, hp]
  simp only [Option.isSome_none, Bool.false_eq_true, if_false]
  cases hpt : potentialNextTimes store.BUS_DATA user_time with
  | nil => simp
  | cons a ts =>
    constructor
    · simp
    · intro tm htm
      rw [Option.some.injEq] at htm
      subst htm
      obtain ⟨hmem, hle, hall⟩ := minTOD_spec ts a
      refine ⟨hmem, ?_⟩
      intro x hx
      rcases List.mem_cons.mp hx with rfl | hx'
      · exact hle
      · exact hall x hx'

theorem digitVal_ofNat : ∀ d, d < 10 → digitVal (Char.ofNat (48 + d)) = some d := by
  decide

theorem twoDigits_fmt {n : Nat} (hn : n < 100) :
    twoDigits (Char.ofNat (48 + n / 10)) (Char.ofNat (48 + n % 10)) = some n := by
  have h1 : n / 10 < 10 := by omega
  have h2 : n % 10 < 10 := by omega
  unfold twoDigits
  rw [digitVal_ofNat _ h1, digitVal_ofNat _ h2]
  dsimp only
  rw [Option.some.injEq]
  omega

theorem fmtTOD_data (t : TOD) : (fmtTOD t).data =
    [Char.ofNat (48 + t.hour / 10), Char.ofNat (48 + t.hour % 10), ':',
     Char.ofNat (48 + t.minute / 10), Char.ofNat (48 + t.minute % 10), ':',
     Char.ofNat (48 + t.second / 10), Char.ofNat (48 + t.second % 10)] := rfl

/-- `strftime` then `strptime` round-trips a valid time-of-day. -/
theorem parseTOD_fmtTOD {t : TOD} (hh : t.hour ≤ 23) (hm : t.minute ≤ 59)
    (hs : t.second ≤ 59) : parseTOD (fmtTOD t) = some t := by
  unfold parseTOD
  rw [fmtTOD_data]
  dsimp only
  rw [if_pos ⟨rfl, rfl⟩]
  rw [twoDigits_fmt (by omega), twoDigits_fmt (by omega), twoDigits_fmt (by omega)]
  dsimp only
  rw [if_pos ⟨hh, hm, hs⟩]

/-- Every timestamp produced by the `'%Y-%m-%d %H:%M:%S'` parser has
in-range time fields. -/
theorem parseDT_ranges {s : String} {dt : DT} (h : parseDT s = some dt) :
    dt.hour ≤ 23 ∧ dt.minute ≤ 59 ∧ dt.second ≤ 59 := by
  unfold parseDT at h
  split at h
  · split at h
    · split at h
      · split at h
        · rw [Option.some.injEq] at h
          subst h
          rename_i hcond
          exact ⟨hcond.2.2.2.2.2.1, hcond.2.2.2.2.2.2.1, hcond.2.2.2.2.2.2.2⟩
        · exact absurd h (by simp)
      · exact absurd h (by simp)
    · exact absurd h (by simp)
  · exact absurd h (by simp)

theorem check_model_loaded_ok {ms : ModelState} {md : ModelData}
    (hml : ms.model_load_error = none) (hmd : ms.MODEL_DATA = some md) :
    check_model_loaded ms = none := by
  unfold check_model_loaded
  rw [hml]
  dsimp only
  rw [hmd]

theorem check_model_loaded_status {ms : ModelState} {e : HTTPException}
    (h : check_model_loaded ms = some e) :
    e.status_code = 500 ∨ e.status_code = 503 := by
  unfold check_model_loaded at h
  cases hml : ms.model_load_error with
  | some err =>
    rw [hml] at h
    dsimp only at h
    rw [Option.some.injEq] at h
    subst h
    left; rfl
  | none =>
    rw [hml] at h
    dsimp only at h
    cases hmd : ms.MODEL_DATA with
    | none =>
      rw [hmd] at h
      dsimp only at h
      rw [Option.some.injEq] at h
      subst h
      right; rfl
    | some md => rw [hmd] at h; dsimp only at h; exact absurd h (by simp)

theorem check_data_loaded_status {store : BusStore} {e : HTTPException}
    (h : check_data_loaded store = some e) :
    e.status_code = 500 ∨ e.status_code = 503 := by
  unfold check_data_loaded at h
  cases hle : store.data_load_error with
  | some err =>
    rw [hle] at h
    dsimp only at h
    rw [Option.some.injEq] at h
    subst h
    left; rfl
  | none =>
    rw [hle] at h
    dsimp only at h
    by_cases hempty : store.BUS_DATA.isEmpty = true
    · rw [if_pos hempty, Option.some.injEq] at h
      subst h
      right; rfl
    · rw [if_neg hempty] at h
      exact absurd h (by simp)

theorem get_next_delay_prediction_model_failure {store : BusStore}
    {ms : ModelState} {s : String} {e : HTTPException}
    (hbad : check_model_loaded ms = some e) :
    get_next_delay_prediction store ms s = .error e := by
  unfold get_next_delay_prediction
  rw [hbad]

theorem find_next_none_of_load_failure {store : BusStore} {s : String}
    (hbad : (check_data_loaded store).isSome = true) :
    find_next_scheduled_time store s = none := by
  unfold find_next_scheduled_time
  rw [if_pos hbad]

theorem get_next_delay_prediction_noSched {store : BusStore} {ms : ModelState}
    {md : ModelData} {s : String}
    (hml : ms.model_load_error = none) (hmd : ms.MODEL_DATA = some md)
    (hfind : find_next_scheduled_time store s = none)
    (hps : (parseTOD s).isSome = true) :
    get_next_delay_prediction store ms s = .ok
      { requested_time := s
        next_scheduled_time_used := none
        predicted_delay_minutes := none
        message := "No scheduled bus found at or after the requested time in the historical data." } := by
  unfold get_next_delay_prediction
  rw [check_model_loaded_ok hml hmd, hmd]
  dsimp only
  rw [hfind]
  dsimp only
  obtain ⟨t, ht⟩ := Option.isSome_iff_exists.mp hps
  rw [ht]

theorem get_next_delay_prediction_found {store : BusStore} {ms : ModelState}
    {md : ModelData} {s : String} {tm : TOD} {v : ℚ}
    (hml : ms.model_load_error = none) (hmd : ms.MODEL_DATA = some md)
    (hfind : find_next_scheduled_time store s = some tm)
    (hh : tm.hour ≤ 23) (hm : tm.minute ≤ 59) (hs : tm.second ≤ 59)
    (hv : npInterp (targetMinutes tm) md.smoothed_curve = some v) :
    get_next_delay_prediction store ms s = .ok
      { requested_time := s
        next_scheduled_time_used := some (fmtTOD tm)
        predicted_delay_minutes := some (round2 v)
        message := "Prediction successful for the next scheduled bus time." } := by
  unfold get_next_delay_prediction
  rw [check_model_loaded_ok hml hmd, hmd]
  dsimp only
  rw [hfind]
  dsimp only
  unfold predict_delay_from_model
  rw [parseTOD_fmtTOD hh hm hs]
  dsimp only
  rw [hv]

theorem routeScheduleInfo_of_none {rt : String} {recs : List BusRecord}
    {t : TOD} (h : nextBusRecord recs t = none) :
    routeScheduleInfo rt recs t = ⟨rt, none, none, none⟩ := by
  unfold routeScheduleInfo
  rw [h]
  rfl

theorem routeScheduleInfo_of_some {rt : String} {recs : List BusRecord}
    {t : TOD} {a : BusRecord} (h : nextBusRecord recs t = some a) :
    routeScheduleInfo rt recs t =
      ⟨rt, avgScheduledDelay recs a, some a.bus_id, some a.scheduled_arrival⟩ := by
  unfold routeScheduleInfo
  rw [h]
  rfl

theorem avgScheduledDelay_eq_none_iff {recs : List BusRecord}
    {anchor : BusRecord} :
    avgScheduledDelay recs anchor = none ↔
      finiteDelays (matchingRecords recs anchor.scheduled_arrival) = [] := by
  unfold avgScheduledDelay
  by_cases h : (finiteDelays (matchingRecords recs anchor.scheduled_arrival)).length = 0
  · rw [if_pos h]
    simp [List.length_eq_zero.mp h]
  · rw [if_neg h]
    constructor
    · intro hc; exact absurd hc (by simp)
    · intro hc; rw [hc] at h; exact absurd rfl h

/-- Under all-finite delays (the invariant of a loaded store) and a resolved
anchor drawn from the record subset, the aggregate is the rounded exact mean
of the delays of the records matching the anchor's arrival string. -/
theorem avgScheduledDelay_of_finite {recs : List BusRecord}
    {anchor : BusRecord}
    (hfin : ∀ r ∈ recs, r.scheduled_delay_minutes.isFinite = true)
    (hmem : anchor ∈ recs) :
    avgScheduledDelay recs anchor =
      some (round2
        (((matchingRecords recs anchor.scheduled_arrival).map
            fun r => r.scheduled_delay_minutes.val).sum /
          ((matchingRecords recs anchor.scheduled_arrival).length : ℚ))) := by
  have hfin' : ∀ r ∈ matchingRecords recs anchor.scheduled_arrival,
      r.scheduled_delay_minutes.isFinite = true :=
    fun r hr => hfin r (mem_matchingRecords.mp hr).1
  have hanc : anchor ∈ matchingRecords recs anchor.scheduled_arrival :=
    mem_matchingRecords.mpr ⟨hmem, rfl⟩
  unfold avgScheduledDelay
  rw [finiteDelays_of_all_finite hfin']
  have hne : (matchingRecords recs anchor.scheduled_arrival).length ≠ 0 := by
    intro hz
    rw [List.length_eq_zero.mp hz] at hanc
    simp at hanc
  simp only [List.length_map]
  rw [if_neg hne]

/-- Every record admitted by `load_bus_data` has a finite
`scheduled_delay_minutes` (and a non-empty route). -/
theorem load_bus_data_invariant {rows : List RawRow} {r : BusRecord}
    (h : r ∈ (load_bus_data rows).BUS_DATA) :
    r.scheduled_delay_minutes.isFinite = true ∧ r.route ≠ "" := by
  unfold load_bus_data at h
  dsimp only at h
  rw [List.mem_filterMap] at h
  obtain ⟨row, _, hval⟩ := h
  unfold validateRow at hval
  split at hval
  · dsimp only at hval
    split_ifs at hval with hc
    rw [Option.some.injEq] at hval
    subst hval
    exact ⟨hc.2.2.2.2.2.2.1, hc.2.2.1⟩
  · exact absurd hval (by simp)

instance {e a : Type} [DecidableEq e] [DecidableEq a] : DecidableEq (Except e a)
  | .ok x, .ok y =>
      if h : x = y then isTrue (h ▸ rfl)
      else isFalse fun hc => h (Except.ok.inj hc)
  | .ok _, .error _ => isFalse fun hc => Except.noConfusion hc
  | .error _, .ok _ => isFalse fun hc => Except.noConfusion hc
  | .error x, .error y =>
      if h : x = y then isTrue (h ▸ rfl)
      else isFalse fun hc => h (Except.error.inj hc)

/-! ## Witness fixtures -/

/-- Scenario record: stop "MAIN/1ST", route "M1", scheduled 2025-01-01
08:00:00, delay 2.0. -/
def scenRec1 : BusRecord :=
  ⟨"MAIN/1ST", "B100", "M1", 8, .fin 2, "2025-01-01 08:00:00", .fin 0⟩

/-- Scenario record: same stop, route and time-of-day, scheduled
2025-01-02 08:00:00, delay 4.0. -/
def scenRec2 : BusRecord :=
  ⟨"MAIN/1ST", "B200", "M1", 8, .fin 4, "2025-01-02 08:00:00", .fin 0⟩

/-- The scenario store of spec section 8. -/
def scenStore : BusStore := ⟨[scenRec1, scenRec2], none⟩

/-- The scenario smoothed curve of spec section 8. -/
def scenCurve : List (ℚ × ℚ) := [(0, 1), (60, 3), (120, 1)]

/-- A healthy prediction-model state holding the scenario curve. -/
def okModel : ModelState := ⟨some ⟨scenCurve⟩, none⟩

/-- A record store whose load failed. -/
def failedStore : BusStore := ⟨[], some "boom"⟩

/-- A prediction-model state whose load failed. -/
def failedModel : ModelState := ⟨none, some "model boom"⟩

/-! ## Claims -/

/-- C1: for every stop/route record subset and query time-of-day `t`, a
record returned by the per-route Next-Arrival Resolver is drawn from that
subset, its `scheduled_arrival` parses with time-of-day component at or
after `t`, and its full date+time timestamp is minimal among all such
candidates. -/
theorem C1_per_route_resolver {recs : List BusRecord} {t : TOD}
    {rec : BusRecord} (h : nextBusRecord recs t = some rec) :
    rec ∈ recs ∧
    ∃ dt, parseDT rec.scheduled_arrival = some dt ∧ TOD.le t dt.tod ∧
      ∀ r' ∈ recs, ∀ dt', parseDT r'.scheduled_arrival = some dt' →
        TOD.le t dt'.tod → DT.le dt dt' := by
  obtain ⟨dt, hp, hm, hle, hmin⟩ := nextBusRecord_spec h
  exact ⟨hm, dt, hp, hle, hmin⟩

/-- C1 witness: in the two-record scenario (same time-of-day 08:00:00 on
2025-01-01 and 2025-01-02, query 07:59) the resolver picks the 2025-01-01
record, and the theorem instantiates on it. -/
theorem C1_per_route_resolver_witness :
    nextBusRecord [scenRec1, scenRec2] ⟨7, 59, 0⟩ = some scenRec1 ∧
    (scenRec1 ∈ [scenRec1, scenRec2] ∧
     ∃ dt, parseDT scenRec1.scheduled_arrival = some dt ∧
       TOD.le ⟨7, 59, 0⟩ dt.tod ∧
       ∀ r' ∈ [scenRec1, scenRec2], ∀ dt',
         parseDT r'.scheduled_arrival = some dt' →
         TOD.le ⟨7, 59, 0⟩ dt'.tod → DT.le dt dt') :=
  ⟨by decide, C1_per_route_resolver (by decide)⟩

/-- C2: for an anchor resolved by the per-route resolver over a record
subset with all-finite delays (the invariant of a validated store), the
reported average is the exact arithmetic mean of `scheduled_delay_minutes`
over the records whose `scheduled_arrival` string equals the anchor's,
rounded to 2 decimal digits. -/
theorem C2_average_exact_mean {recs : List BusRecord} {t : TOD}
    {anchor : BusRecord}
    (hfin : ∀ r ∈ recs, r.scheduled_delay_minutes.isFinite = true)
    (hres : nextBusRecord recs t = some anchor) :
    avgScheduledDelay recs anchor =
      some (round2
        (((matchingRecords recs anchor.scheduled_arrival).map
            fun r => r.scheduled_delay_minutes.val).sum /
          ((matchingRecords recs anchor.scheduled_arrival).length : ℚ))) := by
  obtain ⟨_, _, hmem, _, _⟩ := nextBusRecord_spec hres
  exact avgScheduledDelay_of_finite hfin hmem

/-- C2 witness: in the scenario store only the 2025-01-01 record matches
the anchor's exact string, so the average is 2.0 (not the 3.0 mean of both
same-time-of-day records). -/
theorem C2_average_exact_mean_witness :
    avgScheduledDelay [scenRec1, scenRec2] scenRec1 =
      some (round2
        (((matchingRecords [scenRec1, scenRec2] scenRec1.scheduled_arrival).map
            fun r => r.scheduled_delay_minutes.val).sum /
          ((matchingRecords [scenRec1, scenRec2] scenRec1.scheduled_arrival).length : ℚ))) ∧
    avgScheduledDelay [scenRec1, scenRec2] scenRec1 = some 2 :=
  ⟨C2_average_exact_mean (t := ⟨7, 59, 0⟩) (by decide) (by decide), by
    simp [avgScheduledDelay, matchingRecords, finiteDelays, scenRec1, scenRec2]
    norm_num [round2, roundHalfEven]⟩

/-- C8: a well-formed query for a stop name matching zero records of a
healthy store fails with 404 Not Found (and hence returns no per-route
list). -/
theorem C8_unknown_stop_not_found {store : BusStore} {stop_name : String}
    {hour minute : Nat} (hok : check_data_loaded store = none)
    (hempty : stopData store stop_name = []) :
    get_schedule_for_stop store stop_name hour minute =
      .error ⟨404, "No data found for stop name: " ++ stop_name⟩ := by
  unfold get_schedule_for_stop
  rw [hok]
  dsimp only
  rw [if_pos (List.isEmpty_iff.mpr hempty)]

/-- C8 witness: the scenario store holds no records for stop "NOWHERE". -/
theorem C8_unknown_stop_not_found_witness :
    get_schedule_for_stop scenStore "NOWHERE" 7 59 =
      .error ⟨404, "No data found for stop name: " ++ "NOWHERE"⟩ :=
  C8_unknown_stop_not_found (by decide) (by decide)

/-- C9 counterexample: with a failed record store but a healthy model, the
`/predict-next-delay` endpoint returns a SUCCESSFUL "no schedule found"
response with null fields — not a service-unavailable failure, refuting the
claim that every query against a failed store surfaces such a failure. -/
theorem C9_counterexample :
    get_next_delay_prediction failedStore okModel "08:00:00" =
      .ok { requested_time := "08:00:00"
            next_scheduled_time_used := none
            predicted_delay_minutes := none
            message := "No scheduled bus found at or after the requested time in the historical data." } ∧
    ∀ e, get_next_delay_prediction failedStore okModel "08:00:00" ≠
      .error e := by
  refine ⟨by decide, ?_⟩
  intro e h
  rw [show get_next_delay_prediction failedStore okModel "08:00:00" =
      .ok { requested_time := "08:00:00"
            next_scheduled_time_used := none
            predicted_delay_minutes := none
            message := "No scheduled bus found at or after the requested time in the historical data." }
    from by decide] at h
  exact Except.noConfusion h

/-- C9 (amended): queries handled by the bus-data router's
`check_data_loaded`, and model-load failures in the prediction router,
surface a 500/503 failure; but `/predict-next-delay` checks only the model
— with the model loaded and the record store failed, the store's
`HTTPException` is swallowed by `find_next_scheduled_time` and the endpoint
returns the successful "no schedule found" response with null fields. -/
theorem C9_amended_failure_routing {store : BusStore} {ms : ModelState}
    {md : ModelData} {stop_name s : String} {hour minute : Nat}
    {e : HTTPException} :
    (check_data_loaded store = some e →
      get_schedule_for_stop store stop_name hour minute = .error e ∧
      (e.status_code = 500 ∨ e.status_code = 503)) ∧
    (check_model_loaded ms = some e →
      get_next_delay_prediction store ms s = .error e ∧
      (e.status_code = 500 ∨ e.status_code = 503)) ∧
    (check_data_loaded store = some e → ms.model_load_error = none →
      ms.MODEL_DATA = some md → (parseTOD s).isSome = true →
      get_next_delay_prediction store ms s = .ok
        { requested_time := s
          next_scheduled_time_used := none
          predicted_delay_minutes := none
          message := "No scheduled bus found at or after the requested time in the historical data." }) := by
  refine ⟨?_, ?_, ?_⟩
  · intro h
    refine ⟨?_, check_data_loaded_status h⟩
    unfold get_schedule_for_stop
    rw [h]
  · intro h
    exact ⟨get_next_delay_prediction_model_failure h, check_model_loaded_status h⟩
  · intro h hml hmd hps
    have hnone : find_next_scheduled_time store s = none :=
      find_next_none_of_load_failure (by rw [h]; rfl)
    exact get_next_delay_prediction_noSched hml hmd hnone hps

/-- C9 amended witness: all three branches at concrete inputs — a failed
store 500s on `/stop-schedule`, a failed model 500s on
`/predict-next-delay`, and a failed store with healthy model yields the
successful null "no schedule found" response. -/
theorem C9_amended_failure_routing_witness :
    (get_schedule_for_stop failedStore "MAIN/1ST" 8 0 =
      .error ⟨500, "Internal Server Error: Could not load bus data. Reason: " ++ "boom"⟩ ∧
      ((500 : Nat) = 500 ∨ (500 : Nat) = 503)) ∧
    (get_next_delay_prediction failedStore failedModel "08:00:00" =
      .error ⟨500, "Internal Server Error: Could not load prediction model. Reason: " ++ "model boom"⟩ ∧
      ((500 : Nat) = 500 ∨ (500 : Nat) = 503)) ∧
    get_next_delay_prediction failedStore okModel "08:00:00" = .ok
      { requested_time := "08:00:00"
        next_scheduled_time_used := none
        predicted_delay_minutes := none
        message := "No scheduled bus found at or after the requested time in the historical data." } :=
  ⟨(@C9_amended_failure_routing failedStore okModel ⟨scenCurve⟩ "MAIN/1ST"
      "08:00:00" 8 0
      ⟨500, "Internal Server Error: Could not load bus data. Reason: " ++ "boom"⟩).1
      (by decide),
   (@C9_amended_failure_routing failedStore failedModel ⟨scenCurve⟩ "MAIN/1ST"
      "08:00:00" 8 0
      ⟨500, "Internal Server Error: Could not load prediction model. Reason: " ++ "model boom"⟩).2.1
      (by decide),
   (@C9_amended_failure_routing failedStore okModel ⟨scenCurve⟩ "MAIN/1ST"
      "08:00:00" 8 0
      ⟨500, "Internal Server Error: Could not load bus data. Reason: " ++ "boom"⟩).2.2
      (by decide) rfl rfl (by decide)⟩

/-- C3: `predict_delay_from_model` converts the query time to
`hour*60 + minute + second/60` minutes since midnight and returns the
piecewise-linear `np.interp` interpolation over the (strictly ascending)
smoothed curve: clamped to the first sample's y at or below the minimum x,
to the last sample's y at or above the maximum x, exact at every sample
knot, constant for a single-sample curve, and the linear formula between
any two adjacent bracketing samples. -/
theorem C3_curve_predictor {md : ModelData} {s : String} {t : TOD}
    {curve : List (ℚ × ℚ)} (hcurve : md.smoothed_curve = curve)
    (hsorted : StrictCurve curve) (hp : parseTOD s = some t) :
    predict_delay_from_model md s = npInterp (targetMinutes t) curve ∧
    targetMinutes t = (t.hour : ℚ) * 60 + (t.minute : ℚ) + (t.second : ℚ) / 60 ∧
    (∀ x0 y0 rest, curve = (x0, y0) :: rest → targetMinutes t ≤ x0 →
      predict_delay_from_model md s = some y0) ∧
    (∀ xl yl, curve.getLast? = some (xl, yl) → xl ≤ targetMinutes t →
      predict_delay_from_model md s = some yl) ∧
    (∀ x y, (x, y) ∈ curve → targetMinutes t = x →
      predict_delay_from_model md s = some y) ∧
    (∀ x y, curve = [(x, y)] → predict_delay_from_model md s = some y) ∧
    (∀ l1 x0 y0 x1 y1 l2, curve = l1 ++ (x0, y0) :: (x1, y1) :: l2 →
      x0 ≤ targetMinutes t → targetMinutes t ≤ x1 →
      predict_delay_from_model md s =
        some (y0 + (y1 - y0) * (targetMinutes t - x0) / (x1 - x0))) := by
  have hpred : predict_delay_from_model md s = npInterp (targetMinutes t) curve := by
    unfold predict_delay_from_model
    rw [hp, hcurve]
  refine ⟨hpred, rfl, ?_, ?_, ?_, ?_, ?_⟩
  · intro x0 y0 rest hc hle
    rw [hpred, hc]
    exact npInterp_clamp_left hle
  · intro xl yl hlast hle
    rw [hpred]
    exact npInterp_clamp_right hsorted hlast hle
  · intro x y hmem heq
    rw [hpred, heq]
    exact npInterp_knot hsorted hmem
  · intro x y hc
    rw [hpred, hc]
    exact npInterp_single
  · intro l1 x0 y0 x1 y1 l2 hc h0 h1
    rw [hpred, hc]
    exact npInterp_bracket (hc ▸ hsorted) h0 h1

/-- C3 witness: the scenario curve `[(0,1),(60,3),(120,1)]` at query time
00:30:00 (minute 30); additionally the interpolated midpoint value is 2 and
a query at minute 1400 (23:20:00) clamps to the last sample's 1. -/
theorem C3_curve_predictor_witness :
    (predict_delay_from_model ⟨scenCurve⟩ "00:30:00" =
        npInterp (targetMinutes ⟨0, 30, 0⟩) scenCurve ∧
      targetMinutes ⟨0, 30, 0⟩ =
        ((0 : Nat) : ℚ) * 60 + ((30 : Nat) : ℚ) + ((0 : Nat) : ℚ) / 60 ∧
      (∀ x0 y0 rest, scenCurve = (x0, y0) :: rest →
        targetMinutes ⟨0, 30, 0⟩ ≤ x0 →
        predict_delay_from_model ⟨scenCurve⟩ "00:30:00" = some y0) ∧
      (∀ xl yl, scenCurve.getLast? = some (xl, yl) →
        xl ≤ targetMinutes ⟨0, 30, 0⟩ →
        predict_delay_from_model ⟨scenCurve⟩ "00:30:00" = some yl) ∧
      (∀ x y, (x, y) ∈ scenCurve → targetMinutes ⟨0, 30, 0⟩ = x →
        predict_delay_from_model ⟨scenCurve⟩ "00:30:00" = some y) ∧
      (∀ x y, scenCurve = [(x, y)] →
        predict_delay_from_model ⟨scenCurve⟩ "00:30:00" = some y) ∧
      (∀ l1 x0 y0 x1 y1 l2, scenCurve = l1 ++ (x0, y0) :: (x1, y1) :: l2 →
        x0 ≤ targetMinutes ⟨0, 30, 0⟩ → targetMinutes ⟨0, 30, 0⟩ ≤ x1 →
        predict_delay_from_model ⟨scenCurve⟩ "00:30:00" =
          some (y0 + (y1 - y0) * (targetMinutes ⟨0, 30, 0⟩ - x0) / (x1 - x0)))) ∧
    predict_delay_from_model ⟨scenCurve⟩ "00:30:00" = some 2 ∧
    predict_delay_from_model ⟨scenCurve⟩ "23:20:00" = some 1 :=
  ⟨C3_curve_predictor rfl (by norm_num [StrictCurve, scenCurve]) (by decide),
   by
     unfold predict_delay_from_model
     rw [show parseTOD "00:30:00" = some ⟨0, 30, 0⟩ from by decide]
     norm_num [scenCurve, npInterp, npInterpAux, targetMinutes],
   by
     unfold predict_delay_from_model
     rw [show parseTOD "23:20:00" = some ⟨23, 20, 0⟩ from by decide]
     norm_num [scenCurve, npInterp, npInterpAux, targetMinutes]⟩

/-- C4: with a healthy store and model, the global resolver used by
`/predict-next-delay` returns the minimum of the time-of-day values (not
full timestamps) at or after the query time across ALL records regardless
of stop or route; when no such value exists the endpoint returns a
successful explicit "no schedule found" response with null resolved time
and null prediction, and otherwise it returns both the resolved time and
the rounded predicted delay for it. -/
theorem C4_global_resolver {store : BusStore} {ms : ModelState}
    {md : ModelData} {s : String} {t : TOD}
    (hok : check_data_loaded store = none)
    (hml : ms.model_load_error = none) (hmd : ms.MODEL_DATA = some md)
    (hp : parseTOD s = some t) :
    (∀ tm, find_next_scheduled_time store s = some tm →
      (TOD.le t tm ∧ ∃ r ∈ store.BUS_DATA, ∃ dt,
          parseDT r.scheduled_arrival = some dt ∧ dt.tod = tm) ∧
      ∀ tm', TOD.le t tm' →
        (∃ r ∈ store.BUS_DATA, ∃ dt,
          parseDT r.scheduled_arrival = some dt ∧ dt.tod = tm') →
        TOD.le tm tm') ∧
    ((∀ tm', ¬ (TOD.le t tm' ∧ ∃ r ∈ store.BUS_DATA, ∃ dt,
        parseDT r.scheduled_arrival = some dt ∧ dt.tod = tm')) →
      find_next_scheduled_time store s = none ∧
      get_next_delay_prediction store ms s = .ok
        { requested_time := s
          next_scheduled_time_used := none
          predicted_delay_minutes := none
          message := "No scheduled bus found at or after the requested time in the historical data." }) ∧
    (∀ tm v, find_next_scheduled_time store s = some tm →
      npInterp (targetMinutes tm) md.smoothed_curve = some v →
      get_next_delay_prediction store ms s = .ok
        { requested_time := s
          next_scheduled_time_used := some (fmtTOD tm)
          predicted_delay_minutes := some (round2 v)
          message := "Prediction successful for the next scheduled bus time." }) := by
  obtain ⟨hniff, hsome⟩ := find_next_scheduled_time_spec hok hp
  refine ⟨?_, ?_, ?_⟩
  · intro tm htm
    obtain ⟨hmem, hall⟩ := hsome tm htm
    refine ⟨mem_potentialNextTimes.mp hmem, ?_⟩
    intro tm' hle' hex'
    exact hall tm' (mem_potentialNextTimes.mpr ⟨hle', hex'⟩)
  · intro hno
    have hempty : potentialNextTimes store.BUS_DATA t = [] :=
      List.eq_nil_iff_forall_not_mem.mpr fun tm' htm' =>
        hno tm' (mem_potentialNextTimes.mp htm')
    have hnone := hniff.mpr hempty
    exact ⟨hnone,
      get_next_delay_prediction_noSched hml hmd hnone (by rw [hp]; rfl)⟩
  · intro tm v htm hv
    obtain ⟨hmem, _⟩ := hsome tm htm
    obtain ⟨_, r, _, dt, hpd, htod⟩ := mem_potentialNextTimes.mp hmem
    obtain ⟨hh, hm, hs⟩ := parseDT_ranges hpd
    have htm_ranges : tm.hour ≤ 23 ∧ tm.minute ≤ 59 ∧ tm.second ≤ 59 := by
      rw [← htod]
      exact ⟨hh, hm, hs⟩
    exact get_next_delay_prediction_found hml hmd htm htm_ranges.1
      htm_ranges.2.1 htm_ranges.2.2 hv

/-- C4 witness: the scenario store queried at 07:59:00 resolves the global
next time 08:00:00; the theorem instantiates on that store and the
scenario model. -/
theorem C4_global_resolver_witness :
    find_next_scheduled_time scenStore "07:59:00" = some ⟨8, 0, 0⟩ ∧
    ((∀ tm, find_next_scheduled_time scenStore "07:59:00" = some tm →
      (TOD.le ⟨7, 59, 0⟩ tm ∧ ∃ r ∈ scenStore.BUS_DATA, ∃ dt,
          parseDT r.scheduled_arrival = some dt ∧ dt.tod = tm) ∧
      ∀ tm', TOD.le ⟨7, 59, 0⟩ tm' →
        (∃ r ∈ scenStore.BUS_DATA, ∃ dt,
          parseDT r.scheduled_arrival = some dt ∧ dt.tod = tm') →
        TOD.le tm tm') ∧
    ((∀ tm', ¬ (TOD.le ⟨7, 59, 0⟩ tm' ∧ ∃ r ∈ scenStore.BUS_DATA, ∃ dt,
        parseDT r.scheduled_arrival = some dt ∧ dt.tod = tm')) →
      find_next_scheduled_time scenStore "07:59:00" = none ∧
      get_next_delay_prediction scenStore okModel "07:59:00" = .ok
        { requested_time := "07:59:00"
          next_scheduled_time_used := none
          predicted_delay_minutes := none
          message := "No scheduled bus found at or after the requested time in the historical data." }) ∧
    (∀ tm v, find_next_scheduled_time scenStore "07:59:00" = some tm →
      npInterp (targetMinutes tm) (ModelData.mk scenCurve).smoothed_curve = some v →
      get_next_delay_prediction scenStore okModel "07:59:00" = .ok
        { requested_time := "07:59:00"
          next_scheduled_time_used := some (fmtTOD tm)
          predicted_delay_minutes := some (round2 v)
          message := "Prediction successful for the next scheduled bus time." })) :=
  ⟨by decide,
   @C4_global_resolver scenStore okModel ⟨scenCurve⟩ "07:59:00" ⟨7, 59, 0⟩
     (by decide) rfl rfl (by decide)⟩

/-- Every entry of a successful `/stop-schedule` response is the per-route
result for one of the stop's route keys. -/
theorem mem_routes_of_ok {store : BusStore} {stop_name : String}
    {hour minute : Nat} {resp : StopScheduleResponse}
    {e : StopRouteScheduleInfo}
    (hval : get_schedule_for_stop store stop_name hour minute = .ok resp)
    (he : e ∈ resp.routes_at_stop) :
    ∃ rt ∈ routeKeys (stopData store stop_name),
      e = routeScheduleInfo rt
        ((stopData store stop_name).filter fun r => r.route = rt)
        ⟨hour, minute, 0⟩ := by
  obtain ⟨-, -, hresp⟩ := get_schedule_for_stop_ok_iff.mp hval
  subst hresp
  exact mem_stopRouteInfos.mp he

/-- C5: in a successful `/stop-schedule` response, a route with no record
whose time-of-day is at or after the requested time gets the defined
absence (null id, null arrival, null average) — no wrap to the next day —
and every non-null resolved arrival has time-of-day ≥ the requested
time-of-day. -/
theorem C5_no_day_wraparound {store : BusStore} {stop_name : String}
    {hour minute : Nat} {resp : StopScheduleResponse}
    {e : StopRouteScheduleInfo}
    (hval : get_schedule_for_stop store stop_name hour minute = .ok resp)
    (he : e ∈ resp.routes_at_stop) :
    ((∀ r ∈ store.BUS_DATA, r.stop_name = stop_name → r.route = e.route →
        ∀ dt, parseDT r.scheduled_arrival = some dt →
          ¬ TOD.le ⟨hour, minute, 0⟩ dt.tod) →
      e = ⟨e.route, none, none, none⟩) ∧
    (∀ s', e.next_scheduled_arrival = some s' →
      ∃ dt, parseDT s' = some dt ∧ TOD.le ⟨hour, minute, 0⟩ dt.tod) := by
  obtain ⟨rt, hrt, he'⟩ := mem_routes_of_ok hval he
  subst he'
  constructor
  · intro hno
    have hnone : nextBusRecord
        ((stopData store stop_name).filter fun r => r.route = rt)
        ⟨hour, minute, 0⟩ = none := by
      rw [nextBusRecord_eq_none]
      intro r hr dt hpd hle
      have hr1 := List.mem_filter.mp hr
      have hr2 := List.mem_filter.mp hr1.1
      exact hno r hr2.1 (of_decide_eq_true hr2.2) (of_decide_eq_true hr1.2)
        dt hpd hle
    rw [routeScheduleInfo_of_none hnone]
  · intro s' hs'
    cases hnbr : nextBusRecord
        ((stopData store stop_name).filter fun r => r.route = rt)
        ⟨hour, minute, 0⟩ with
    | none =>
      rw [routeScheduleInfo_of_none hnbr] at hs'
      exact absurd hs' (by simp)
    | some a =>
      rw [routeScheduleInfo_of_some hnbr] at hs'
      obtain ⟨dt, hpd, -, hle, -⟩ := nextBusRecord_spec hnbr
      have hsa : a.scheduled_arrival = s' := by
        dsimp only at hs'
        exact Option.some.inj hs'
      exact ⟨dt, hsa ▸ hpd, hle⟩

/-- C5 witness: the scenario store queried at 09:00 — after all scheduled
times of day — yields the all-null entry for route M1 instead of wrapping
to the next day's 08:00. -/
theorem C5_no_day_wraparound_witness :
    ((∀ r ∈ scenStore.BUS_DATA, r.stop_name = "MAIN/1ST" →
        r.route = (⟨"M1", none, none, none⟩ : StopRouteScheduleInfo).route →
        ∀ dt, parseDT r.scheduled_arrival = some dt →
          ¬ TOD.le ⟨9, 0, 0⟩ dt.tod) →
      (⟨"M1", none, none, none⟩ : StopRouteScheduleInfo) =
        ⟨(⟨"M1", none, none, none⟩ : StopRouteScheduleInfo).route, none, none, none⟩) ∧
    (∀ s', (⟨"M1", none, none, none⟩ : StopRouteScheduleInfo).next_scheduled_arrival = some s' →
      ∃ dt, parseDT s' = some dt ∧ TOD.le ⟨9, 0, 0⟩ dt.tod) :=
  @C5_no_day_wraparound scenStore "MAIN/1ST" 9 0
    { stop_name := "MAIN/1ST", requested_time := "09:00",
      routes_at_stop := [⟨"M1", none, none, none⟩] }
    ⟨"M1", none, none, none⟩ (by decide) (by decide)

/-- C6: for a stop present in a healthy store whose records all carry
non-empty routes, the response has exactly one entry per distinct route
observed at that stop (no duplicates, full coverage) and the entries are
sorted ascending lexicographically by route name. -/
theorem C6_one_entry_per_route_sorted {store : BusStore} {stop_name : String}
    {hour minute : Nat} (hok : check_data_loaded store = none)
    (hstop : stopData store stop_name ≠ [])
    (hroutes : ∀ r ∈ store.BUS_DATA, r.route ≠ "") :
    ∃ resp, get_schedule_for_stop store stop_name hour minute = .ok resp ∧
      (resp.routes_at_stop.map StopRouteScheduleInfo.route).Nodup ∧
      resp.routes_at_stop.Pairwise (fun a b => strLe a.route b.route = true) ∧
      ∀ rt, (∃ e ∈ resp.routes_at_stop, e.route = rt) ↔
        ∃ r ∈ store.BUS_DATA, r.stop_name = stop_name ∧ r.route = rt := by
  refine ⟨_, get_schedule_for_stop_ok_iff.mpr ⟨hok, hstop, rfl⟩,
    nodup_route_stopRouteInfos _ _, sorted_stopRouteInfos _ _, ?_⟩
  intro rt
  constructor
  · rintro ⟨e, he, rfl⟩
    obtain ⟨rt', hrt', rfl⟩ := mem_stopRouteInfos.mp he
    obtain ⟨hne, r, hr, hrrt⟩ := mem_routeKeys.mp hrt'
    have hr' := List.mem_filter.mp hr
    exact ⟨r, hr'.1, of_decide_eq_true hr'.2, hrrt⟩
  · rintro ⟨r, hr, hstopeq, hroute⟩
    have hrt : rt ∈ routeKeys (stopData store stop_name) := by
      rw [mem_routeKeys]
      refine ⟨?_, r, ?_, hroute⟩
      · rw [← hroute]; exact hroutes r hr
      · unfold stopData
        rw [List.mem_filter]
        exact ⟨hr, decide_eq_true hstopeq⟩
    exact ⟨routeScheduleInfo rt
        ((stopData store stop_name).filter fun x => x.route = rt)
        ⟨hour, minute, 0⟩,
      mem_stopRouteInfos.mpr ⟨rt, hrt, rfl⟩, rfl⟩

/-- C6 witness: a two-route store (routes observed in order M2, M1) yields
one entry per route, sorted M1 before M2. -/
theorem C6_one_entry_per_route_sorted_witness :
    ∃ resp, get_schedule_for_stop
        ⟨[⟨"S", "B2", "M2", 9, .fin 1, "2025-01-01 09:00:00", .fin 0⟩,
          ⟨"S", "B1", "M1", 8, .fin 1, "2025-01-01 08:00:00", .fin 0⟩], none⟩
        "S" 7 0 = .ok resp ∧
      (resp.routes_at_stop.map StopRouteScheduleInfo.route).Nodup ∧
      resp.routes_at_stop.Pairwise (fun a b => strLe a.route b.route = true) ∧
      ∀ rt, (∃ e ∈ resp.routes_at_stop, e.route = rt) ↔
        ∃ r ∈ (⟨[⟨"S", "B2", "M2", 9, .fin 1, "2025-01-01 09:00:00", .fin 0⟩,
                 ⟨"S", "B1", "M1", 8, .fin 1, "2025-01-01 08:00:00", .fin 0⟩],
                none⟩ : BusStore).BUS_DATA,
          r.stop_name = "S" ∧ r.route = rt :=
  C6_one_entry_per_route_sorted (by decide) (by decide) (by decide)

/-- C7: in a successful `/stop-schedule` response, a route's average is
null exactly when no anchor was resolved for it, or an anchor exists but
zero records with a finite delay match its arrival string; the absence is
a null field inside the successful response, never an error. -/
theorem C7_absent_average_iff {store : BusStore} {stop_name : String}
    {hour minute : Nat} {resp : StopScheduleResponse}
    {e : StopRouteScheduleInfo}
    (hval : get_schedule_for_stop store stop_name hour minute = .ok resp)
    (he : e ∈ resp.routes_at_stop) :
    e.average_scheduled_delay_at_schedule = none ↔
      (e.next_bus_id = none ∨
       ∃ a, nextBusRecord
           ((stopData store stop_name).filter fun r => r.route = e.route)
           ⟨hour, minute, 0⟩ = some a ∧
         finiteDelays (matchingRecords
           ((stopData store stop_name).filter fun r => r.route = e.route)
           a.scheduled_arrival) = []) := by
  obtain ⟨rt, hrt, he'⟩ := mem_routes_of_ok hval he
  subst he'
  cases hnbr : nextBusRecord
      ((stopData store stop_name).filter fun r => r.route = rt)
      ⟨hour, minute, 0⟩ with
  | none =>
    rw [routeScheduleInfo_of_none hnbr]
    constructor
    · intro _
      left
      rfl
    · intro _
      rfl
  | some a =>
    rw [routeScheduleInfo_of_some hnbr]
    constructor
    · intro havg
      right
      exact ⟨a, hnbr, avgScheduledDelay_eq_none_iff.mp havg⟩
    · rintro (hbid | ⟨a', ha', hfd⟩)
      · exact absurd hbid (by simp)
      · have ha2 : nextBusRecord
            ((stopData store stop_name).filter fun r => r.route = rt)
            ⟨hour, minute, 0⟩ = some a' := ha'
        rw [hnbr] at ha2
        have haa : a' = a := (Option.some.inj ha2).symm
        subst haa
        exact avgScheduledDelay_eq_none_iff.mpr hfd

/-- C7 witness: a store whose single record carries a non-finite delay —
the anchor resolves but zero finite rows contribute, so the average is the
null field of an otherwise-successful response. -/
theorem C7_absent_average_iff_witness :
    (⟨"R1", none, some "B1", some "2025-01-01 08:00:00"⟩ :
        StopRouteScheduleInfo).average_scheduled_delay_at_schedule = none ↔
      ((⟨"R1", none, some "B1", some "2025-01-01 08:00:00"⟩ :
          StopRouteScheduleInfo).next_bus_id = none ∨
       ∃ a, nextBusRecord
           ((stopData ⟨[⟨"S", "B1", "R1", 8, .nonfin, "2025-01-01 08:00:00", .fin 0⟩], none⟩ "S").filter
             fun r => r.route = (⟨"R1", none, some "B1", some "2025-01-01 08:00:00"⟩ :
               StopRouteScheduleInfo).route)
           ⟨7, 0, 0⟩ = some a ∧
         finiteDelays (matchingRecords
           ((stopData ⟨[⟨"S", "B1", "R1", 8, .nonfin, "2025-01-01 08:00:00", .fin 0⟩], none⟩ "S").filter
             fun r => r.route = (⟨"R1", none, some "B1", some "2025-01-01 08:00:00"⟩ :
               StopRouteScheduleInfo).route)
           a.scheduled_arrival) = []) :=
  @C7_absent_average_iff
    ⟨[⟨"S", "B1", "R1", 8, .nonfin, "2025-01-01 08:00:00", .fin 0⟩], none⟩
    "S" 7 0
    { stop_name := "S", requested_time := "07:00",
      routes_at_stop :=
        [⟨"R1", none, some "B1", some "2025-01-01 08:00:00"⟩] }
    ⟨"R1", none, some "B1", some "2025-01-01 08:00:00"⟩
    (by decide) (by decide)

/-- The raw CSV rows of the two-record scenario. -/
def scenRows : List RawRow :=
  [⟨"MAIN/1ST", "B100", "M1", some 8, some (.fin 2),
    some "2025-01-01 08:00:00", some (.fin 0)⟩,
   ⟨"MAIN/1ST", "B200", "M1", some 8, some (.fin 4),
    some "2025-01-02 08:00:00", some (.fin 0)⟩]

/-- The `/stop-schedule` response over the loaded scenario rows at 07:59:
next bus B100 at 2025-01-01 08:00:00, average 2.0. -/
theorem scenLoadResponse :
    get_schedule_for_stop (load_bus_data scenRows) "MAIN/1ST" 7 59 = .ok
      { stop_name := "MAIN/1ST", requested_time := "07:59",
        routes_at_stop :=
          [⟨"M1", some 2, some "B100", some "2025-01-01 08:00:00"⟩] } := by
  rw [show load_bus_data scenRows = scenStore from by decide]
  rw [get_schedule_for_stop_ok_iff]
  refine ⟨by decide, by decide, ?_⟩
  rw [show stopData scenStore "MAIN/1ST" = [scenRec1, scenRec2] from by decide]
  unfold stopRouteInfos
  rw [show routeKeys [scenRec1, scenRec2] = ["M1"] from by decide]
  simp only [List.map_cons, List.map_nil,
    show List.filter (fun r => decide (r.route = "M1")) [scenRec1, scenRec2] =
      [scenRec1, scenRec2] from by decide]
  rw [show routeScheduleInfo "M1" [scenRec1, scenRec2] ⟨7, 59, 0⟩ =
      ⟨"M1", some 2, some "B100", some "2025-01-01 08:00:00"⟩ from by
    rw [routeScheduleInfo_of_some (a := scenRec1) (by decide)]
    rw [show avgScheduledDelay [scenRec1, scenRec2] scenRec1 = some 2 from by
      simp [avgScheduledDelay, matchingRecords, finiteDelays, scenRec1, scenRec2]
      norm_num [round2, roundHalfEven]]
    rfl]
  rfl

/-- C10 (implicit): over a store built by the validated loader, a resolved
next bus always comes with a non-null average — every loaded record's delay
is finite and the anchor matches its own arrival string, so at least one
row contributes. -/
theorem C10_resolved_implies_average {rows : List RawRow} {stop_name : String}
    {hour minute : Nat} {resp : StopScheduleResponse}
    {e : StopRouteScheduleInfo}
    (hval : get_schedule_for_stop (load_bus_data rows) stop_name hour minute =
      .ok resp)
    (he : e ∈ resp.routes_at_stop)
    (hb : e.next_bus_id ≠ none) :
    e.average_scheduled_delay_at_schedule ≠ none := by
  obtain ⟨rt, hrt, he'⟩ := mem_routes_of_ok hval he
  subst he'
  cases hnbr : nextBusRecord
      ((stopData (load_bus_data rows) stop_name).filter fun r => r.route = rt)
      ⟨hour, minute, 0⟩ with
  | none =>
    rw [routeScheduleInfo_of_none hnbr] at hb
    exact absurd rfl hb
  | some a =>
    rw [routeScheduleInfo_of_some hnbr]
    have hfin : ∀ r ∈ (stopData (load_bus_data rows) stop_name).filter
        (fun r => r.route = rt),
        r.scheduled_delay_minutes.isFinite = true := by
      intro r hr
      have hr1 := List.mem_filter.mp hr
      have hr2 := List.mem_filter.mp hr1.1
      exact (load_bus_data_invariant hr2.1).1
    obtain ⟨-, -, hmem, -, -⟩ := nextBusRecord_spec hnbr
    rw [avgScheduledDelay_of_finite hfin hmem]
    simp

/-- C10 witness: the scenario rows loaded through the validator; the
resolved entry for route M1 carries the non-null average 2.0. -/
theorem C10_resolved_implies_average_witness :
    get_schedule_for_stop (load_bus_data scenRows) "MAIN/1ST" 7 59 = .ok
      { stop_name := "MAIN/1ST", requested_time := "07:59",
        routes_at_stop :=
          [⟨"M1", some 2, some "B100", some "2025-01-01 08:00:00"⟩] } ∧
    (⟨"M1", some 2, some "B100", some "2025-01-01 08:00:00"⟩ :
      StopRouteScheduleInfo).average_scheduled_delay_at_schedule ≠ none :=
  ⟨scenLoadResponse,
   C10_resolved_implies_average scenLoadResponse (by decide) (by decide)⟩
